import Mathlib

/-!
Shallow embedding of the data-preparation pipeline of `hello.py`
(the "Mystery of the Vanishing Profits" dashboard script).

Conventions of the embedding:
* A pandas cell that can be NaN/NaT is an `Option` value (`none` = null).
* Float arithmetic is idealised over `ℚ`, except where IEEE special values
  are observable: the `Profit Margin %` column can hold `±∞` (division by
  zero), so it is modelled by `FVal` with explicit `nan`/`inf` values.
* `pd.Series.sum()` skips nulls and returns `0.0` on empty input, so sums
  are modelled as `List.sum` over `Option.getD 0` projections.
* `groupby(key)` emits one row per distinct non-null key, keys sorted
  ascending (pandas default `sort=True`); modelled by `dedup` followed by
  `List.insertionSort`.
-/

namespace MysteryDash

/-- Model of an IEEE float value as observable in the pipeline: either NaN
(pandas null), a signed infinity (`inf true` = `+∞`, `inf false` = `-∞`),
or a finite value idealised as a rational. -/
inductive FVal where
  | nan : FVal
  | inf : Bool → FVal
  | fin : ℚ → FVal
deriving DecidableEq

/-- `pd.isnull` / `pd.notnull` on a float cell: only NaN is null; the
infinities are *not* null. -/
def FVal.isNull : FVal → Bool
  | .nan => true
  | _ => false

/-- `hello.py` line 94: `df["Profit Margin %"] = df["Profit"] / df["Sales"] * 100`.
Float semantics of the per-row computation, with `Profit` and `Sales`
already coerced (`none` = NaN):
* NaN in either operand propagates to NaN;
* division of a nonzero finite value by (positive) zero gives a signed
  infinity, which `* 100` preserves;
* `0 / 0` gives NaN;
* otherwise the exact rational `p / s * 100`. -/
def profitMarginPct (profit sales : Option ℚ) : FVal :=
  match profit, sales with
  | none, _ => .nan
  | _, none => .nan
  | some p, some s =>
    if s = 0 then
      if p = 0 then .nan else .inf (0 < p)
    else .fin (p / s * 100)

/-- A calendar date as produced by a successful `pd.to_datetime` parse. -/
structure Date where
  year : ℤ
  month : ℕ
  day : ℕ
deriving DecidableEq

/-- Zero-padded two-digit rendering (`strftime` `%m`). -/
def pad2 (n : ℕ) : String := if n < 10 then "0" ++ toString n else toString n

/-- Zero-padded four-digit rendering (`strftime` `%Y`, CE years). -/
def pad4 (n : ℕ) : String :=
  if n < 10 then "000" ++ toString n
  else if n < 100 then "00" ++ toString n
  else if n < 1000 then "0" ++ toString n
  else toString n

/-- `hello.py` line 88: `strftime('%Y-%m')` of a parsed date. -/
def fmtYM (d : Date) : String := pad4 d.year.toNat ++ "-" ++ pad2 d.month

/-- One raw row of `merged_data.csv` as loaded, before type coercion:
every cell is loosely-typed text. -/
structure RawRecord where
  orderDate : String
  category : String
  subCategory : String
  region : String
  sales : String
  profit : String
  discount : String
  returned : String
deriving DecidableEq

/-- One row of the coerced-and-enriched base table `df` after
`hello.py` lines 82-96. -/
structure Record where
  orderDate : Option Date
  category : String
  subCategory : String
  region : String
  sales : Option ℚ
  profit : Option ℚ
  discount : Option ℚ
  year : Option ℤ
  month : Option String
  profitMargin : FVal
  returned : String
deriving DecidableEq

/-- `hello.py` lines 82-96, per row. The cell parsers of the pandas
library are parameters: `parseDate` models `pd.to_datetime(errors="coerce")`
on one cell (`none` = NaT, i.e. the parse failed) and `parseNum` models
`pd.to_numeric(errors="coerce")` (`none` = NaN). Derived fields:
* `Year` (line 86) is `dt.year`, null on NaT;
* `Month` (line 88) is `strftime('%Y-%m')`, null on NaT;
* `Profit Margin %` (line 94) per `profitMarginPct`;
* `Returned` (line 96) is `astype(str)`, the identity on text cells. -/
def coerceEnrich (parseDate : String → Option Date) (parseNum : String → Option ℚ)
    (r : RawRecord) : Record :=
  let d := parseDate r.orderDate
  let p := parseNum r.profit
  let s := parseNum r.sales
  { orderDate := d
    category := r.category
    subCategory := r.subCategory
    region := r.region
    sales := s
    profit := p
    discount := parseNum r.discount
    year := d.map Date.year
    month := d.map fmtYM
    profitMargin := profitMarginPct p s
    returned := r.returned }

/-! ## Row predicates and sums -/

/-- Model of `Series.str.lower().str.startswith(c)` for a one-character
test string: the first character, lowercased, equals `c` (false on the
empty string). The dataset's flag values are ASCII. -/
def lowerStartsWith (c : Char) (s : String) : Bool :=
  match s.data with
  | [] => false
  | a :: _ => a.toLower == c

/-- `hello.py` line 715: the chapter-10 classification of a record as
returned: `df["Returned"].str.lower().str.startswith("y")`. -/
def returnedFlag (r : Record) : Bool := lowerStartsWith 'y' r.returned

/-- The spec's documented returned-flag policy, stated from the spec's
words for comparison with `returnedFlag`: case-insensitive prefix rule,
a value starting with Y or T means returned. -/
def specReturnedRule (s : String) : Bool :=
  lowerStartsWith 'y' s || lowerStartsWith 't' s

/-- Contribution of one row to a pandas `Profit` sum: nulls are skipped,
which is numerically `Option.getD 0`. -/
def profitOf (r : Record) : ℚ := r.profit.getD 0

/-- Contribution of one row to a pandas `Sales` sum. -/
def salesOf (r : Record) : ℚ := r.sales.getD 0

/-- `df["Profit"] < 0` on one row; the comparison is `False` on NaN. -/
def isLoss (r : Record) : Bool :=
  match r.profit with
  | some p => decide (p < 0)
  | none => false

/-- `Series.sum()` of the `Profit` column of a frame. -/
def sumProfit (rs : List Record) : ℚ := (rs.map profitOf).sum

/-- `Series.sum()` of the `Sales` column of a frame. -/
def sumSales (rs : List Record) : ℚ := (rs.map salesOf).sum

/-- Strict lexicographic comparison of char lists by codepoint — the
order pandas uses on text keys. (Defined structurally so that concrete
instances evaluate.) -/
def strLtL : List Char → List Char → Bool
  | [], [] => false
  | [], _ :: _ => true
  | _ :: _, [] => false
  | a :: as, b :: bs =>
    if a < b then true else if b < a then false else strLtL as bs

/-- Strict lexicographic comparison of strings. -/
def strLt (a b : String) : Bool := strLtL a.data b.data

/-- Lexicographic `a ≤ b` on strings. -/
def strLe (a b : String) : Bool := !(strLt b a)

/-- The distinct group keys of a `groupby` over a text column, in the
order pandas emits them (ascending, `sort=True`). -/
def sortedKeys (l : List String) : List String :=
  List.insertionSort (fun a b => strLe a b = true) l.dedup

/-! ## Category / region filters (chapters 1, 3, 4, 7) -/

/-- `hello.py` lines 130-136 (and 280-286, 569-575): keep rows whose
`Category` equals the selection, unless the selection is the sentinel
`"All"`, which means no filter. -/
def catFilter (rs : List Record) (c : String) : List Record :=
  if c = "All" then rs else rs.filter (fun r => r.category == c)

/-- `hello.py` lines 356-362: the chapter-4 region filter. -/
def regionFilter (rs : List Record) (c : String) : List Record :=
  if c = "All" then rs else rs.filter (fun r => r.region == c)

/-! ## Chapter 3 grouping, and the (Category, Region) grouping of the
refinement claim -/

/-- `hello.py` line 290: `groupby("Region")[["Sales","Profit"]].sum()`,
one row `(region, sales sum, profit sum)` per distinct region. -/
def grp3 (rs : List Record) : List (String × ℚ × ℚ) :=
  (sortedKeys (rs.map (·.region))).map fun k =>
    (k, sumSales (rs.filter (fun r => r.region == k)),
      sumProfit (rs.filter (fun r => r.region == k)))

/-- Lexicographic order on pair keys, as pandas sorts a two-column
group key. -/
def pairLe (a b : String × String) : Prop :=
  strLt a.1 b.1 = true ∨ (a.1 = b.1 ∧ strLe a.2 b.2 = true)

instance : DecidableRel pairLe :=
  fun _ _ => inferInstanceAs (Decidable (_ ∨ _))

/-- The same `groupby` aggregation keyed by the `(Category, Region)`
pair over the full table — the comparison side of the
filter-then-group refinement claim. -/
def grpCatRegion (rs : List Record) : List ((String × String) × ℚ × ℚ) :=
  (List.insertionSort pairLe (rs.map (fun r => (r.category, r.region))).dedup).map fun k =>
    (k, sumSales (rs.filter (fun r => (r.category, r.region) == k)),
      sumProfit (rs.filter (fun r => (r.category, r.region) == k)))

/-! ## Chapter 5: top 8 / bottom 2 sub-categories -/

/-- Descending-by-value order used by `sort_values(ascending=False)` on
the grouped profit sums. -/
abbrev descByProfit : (String × ℚ) → (String × ℚ) → Prop :=
  fun a b => b.2 ≤ a.2

instance : DecidableRel descByProfit :=
  fun a b => inferInstanceAs (Decidable (b.2 ≤ a.2))

instance : IsTotal (String × ℚ) descByProfit :=
  ⟨fun a b => le_total b.2 a.2⟩

instance : IsTrans (String × ℚ) descByProfit :=
  ⟨fun _ _ _ h1 h2 => le_trans h2 h1⟩

/-- `hello.py` line 428: profit summed per sub-category, sorted
descending by the sum. -/
def grp5 (rs : List Record) : List (String × ℚ) :=
  List.insertionSort descByProfit
    ((sortedKeys (rs.map (·.subCategory))).map fun k =>
      (k, sumProfit (rs.filter (fun r => r.subCategory == k))))

/-- Line 436: `['Top'] * 8 + ['Bottom'] * 2`. -/
def ch5Tags : List String := List.replicate 8 "Top" ++ List.replicate 2 "Bottom"

/-- Lines 430-436: `head(8)`, `tail(2)`, `pd.concat`, then the
`Highlight` column. Assigning a 10-element column raises when the
concatenated frame does not have exactly 10 rows. -/
def ch5Combined (rs : List Record) : Except String (List ((String × ℚ) × String)) :=
  if ((grp5 rs).take 8 ++ (grp5 rs).drop ((grp5 rs).length - 2)).length = 10 then
    .ok (((grp5 rs).take 8 ++ (grp5 rs).drop ((grp5 rs).length - 2)).zip ch5Tags)
  else .error "Length of values does not match length of index"

/-- Ascending-by-profit order of the plotted frame (line 442:
`combined.sort_values("Profit", ascending=True)`). -/
abbrev ascByProfit : ((String × ℚ) × String) → ((String × ℚ) × String) → Prop :=
  fun a b => a.1.2 ≤ b.1.2

instance : DecidableRel ascByProfit :=
  fun a b => inferInstanceAs (Decidable (a.1.2 ≤ b.1.2))

instance : IsTotal ((String × ℚ) × String) ascByProfit :=
  ⟨fun a b => le_total a.1.2 b.1.2⟩

instance : IsTrans ((String × ℚ) × String) ascByProfit :=
  ⟨fun _ _ _ h1 h2 => le_trans h1 h2⟩

/-- The chapter-5 rows in plotted order. -/
def ch5Result (rs : List Record) : Except String (List ((String × ℚ) × String)) :=
  (ch5Combined rs).map (List.insertionSort ascByProfit)

/-! ## Chapter 9: cumulative losses over time -/

/-- `hello.py` line 672: rows with `Profit < 0`. -/
def lossRows (rs : List Record) : List Record := rs.filter isLoss

/-- Date comparison used by `sort_values("Order Date")`; NaT sorts last
(`na_position='last'`). -/
def Date.le (a b : Date) : Bool :=
  decide (a.year < b.year) ||
    (a.year == b.year &&
      (decide (a.month < b.month) || (a.month == b.month && decide (a.day ≤ b.day))))

/-- Row order of `sort_values("Order Date")`. -/
def recDateLe (a b : Record) : Bool :=
  match a.orderDate, b.orderDate with
  | some x, some y => Date.le x y
  | some _, none => true
  | none, some _ => false
  | none, none => true

/-- Line 672: `df[df["Profit"] < 0].sort_values("Order Date")`. -/
def dfLoss (rs : List Record) : List Record :=
  List.insertionSort (fun a b => recDateLe a b = true) (lossRows rs)

/-- The distinct non-null `Month` keys of the loss rows, ascending —
the row keys of `df_loss.groupby("Month")` (null keys are dropped by
`groupby`). -/
def monthKeys (rs : List Record) : List String :=
  sortedKeys ((dfLoss rs).filterMap (·.month))

/-- The per-month grouped profit sum of the loss rows. -/
def bucketSum (rs : List Record) (m : String) : ℚ :=
  sumProfit ((dfLoss rs).filter (fun r => r.month == some m))

/-- `Series.cumsum()` over an already key-ordered `(key, value)` list. -/
def cumAcc (acc : ℚ) : List (String × ℚ) → List (String × ℚ)
  | [] => []
  | (m, v) :: t => (m, acc + v) :: cumAcc (acc + v) t

/-- Line 676: `df_loss.groupby("Month")["Profit"].sum().cumsum()` —
the chapter-9 cumulative-loss series. (Line 674 also attaches a
`Cumulative Loss` column to the `df_loss` copy, which the chart data
does not use.) -/
def cumsumLossDf (rs : List Record) : List (String × ℚ) :=
  cumAcc 0 ((monthKeys rs).map fun m => (m, bucketSum rs m))

/-- Whether a row's month bucket is `≤ m` (false on a null month) —
the specification-side notion "this loss happened in or before bucket
`m`". -/
def monthLeB (r : Record) (m : String) : Bool :=
  match r.month with
  | some m2 => strLe m2 m
  | none => false

/-- The total profit of the loss rows dated in or before month bucket
`m` — what a cumulative-loss entry at key `m` is supposed to hold. -/
def lossUpTo (rs : List Record) (m : String) : ℚ :=
  sumProfit ((lossRows rs).filter fun r => monthLeB r m)

/-! ## Chapter 10: loss attribution -/

/-- Line 709: `df[df["Profit"] < 0].groupby("Region")["Profit"].sum().abs()`. -/
def regionLoss (rs : List Record) : List (String × ℚ) :=
  (sortedKeys ((lossRows rs).map (·.region))).map fun k =>
    (k, |sumProfit ((lossRows rs).filter (fun r => r.region == k))|)

/-- Line 712: the same per `Category`. -/
def categoryLoss (rs : List Record) : List (String × ℚ) :=
  (sortedKeys ((lossRows rs).map (·.category))).map fun k =>
    (k, |sumProfit ((lossRows rs).filter (fun r => r.category == k))|)

/-- Line 715: total `Profit` over returned-classified rows (signed).
`Series.sum()` skips nulls and yields `0` on an empty selection, so the
result is always a (non-null) number. -/
def returnsLoss (rs : List Record) : ℚ := sumProfit (rs.filter returnedFlag)

/-- Line 717: total `Profit` over rows that are loss-making and have
`Discount > 0.3` (the float literal idealised as `3/10`); NaN discounts
compare `False`. -/
def heavyDiscountLoss (rs : List Record) : ℚ :=
  sumProfit (rs.filter fun r =>
    isLoss r &&
      (match r.discount with
       | some d => decide ((3 : ℚ) / 10 < d)
       | none => false))

/-- `Series.max()` of a nonempty series (the empty case never feeds the
chart because the emptiness guards precede it). -/
def listMax : List ℚ → ℚ
  | [] => 0
  | x :: xs => xs.foldl max x

/-- Lines 719-732: the `labels` / `values` lists fed to the chapter-10
pie chart. The two `pd.notnull` guards on `returns_loss` and
`heavy_discount_loss` are satisfied for every input — `Series.sum()`
with default `skipna` returns `0.0`, never NaN, even on an empty
selection — so those two branches always append. -/
def ch10LabelsValues (rs : List Record) : List String × List ℚ :=
  let rl := regionLoss rs
  let cl := categoryLoss rs
  let l1 : List String := if rl.isEmpty then [] else ["Regions (max loss)"]
  let v1 : List ℚ := if rl.isEmpty then [] else [listMax (rl.map Prod.snd)]
  let l2 : List String := if cl.isEmpty then [] else ["Categories (max loss)"]
  let v2 : List ℚ := if cl.isEmpty then [] else [listMax (cl.map Prod.snd)]
  (l1 ++ l2 ++ ["Returns", "Heavy Discounts"],
    v1 ++ v2 ++ [|returnsLoss rs|, |heavyDiscountLoss rs|])

/-! ## Chapter 6: the discount slider -/

/-- The shapes the slider call can hand back: a tuple/list of numbers, a
bare number, or anything else. -/
inductive SliderVal where
  | tup : List ℚ → SliderVal
  | num : ℚ → SliderVal
  | other : SliderVal
deriving DecidableEq

/-- `hello.py` lines 506-511: a 2-element tuple or list is the
`(low, high)` pair; a bare number is both bounds; any other shape
raises `RuntimeError`. -/
def parseSliderRange : SliderVal → Except String (ℚ × ℚ)
  | .tup [a, b] => .ok (a, b)
  | .tup _ => .error "Unexpected slider return value"
  | .num v => .ok (v, v)
  | .other => .error "Unexpected slider return value"

/-- One row of the chapter-6 mask
`(df["Discount"] >= lo) & (df["Discount"] <= hi)`; both comparisons are
`False` on a NaN discount. -/
def discBetween (lo hi : ℚ) (r : Record) : Bool :=
  match r.discount with
  | some d => decide (lo ≤ d) && decide (d ≤ hi)
  | none => false

/-- Line 513: the chapter-6 filter. -/
def ch6Filter (rs : List Record) (lo hi : ℚ) : List Record :=
  rs.filter (discBetween lo hi)

/-- Lines 504-513 end to end: parse the slider value (raising before any
filtering on a bad shape), then filter. -/
def ch6Step (rs : List Record) (v : SliderVal) : Except String (List Record) := do
  let (lo, hi) ← parseSliderRange v
  pure (ch6Filter rs lo hi)

/-! ## The whole script over the enriched base table (chapters 1-10) -/

/-- The widget selections of one render pass. -/
structure Selections where
  cat1 : String
  granularity : String
  cat3 : String
  region4 : String
  slider : SliderVal
  cat7 : String
deriving DecidableEq

/-- The dataframe bindings the script holds after a successful render
pass. Per-chapter aggregates that are pure functions of these frames
(`grp`, `grp3`, `grp4`, `grp7`, the pivot) are not stored separately. -/
structure ScriptState where
  df : List Record
  dfCh1 : List Record
  dfCh2 : List Record
  dfCh3 : List Record
  dfCh4 : List Record
  ch5 : List ((String × ℚ) × String)
  dfCh6 : List Record
  dfCh7 : List Record
  dfLossRows : List Record
  cumLoss : List (String × ℚ)
  ch10 : List String × List ℚ
deriving DecidableEq

/-- The data flow of `hello.py` from line 124 on, over the
coerced-and-enriched base table `df0`. Every chapter derives its frame
from `df0`; `df.copy()` (chapter 2) is a fresh frame with the same
rows; `df[mask]` produces a new frame, and the chapter-9 column
assignment `df_loss["Cumulative Loss"] = ...` lands on the `df_loss`
copy, never on `df` — so nothing assigns to `df` after enrichment.
A `RuntimeError` (chapter 5 length mismatch, chapter 6 slider shape)
aborts the pass. -/
def runScript (df0 : List Record) (sel : Selections) : Except String ScriptState := do
  let dfCh1 := catFilter df0 sel.cat1
  let dfCh2 := df0
  let dfCh3 := catFilter df0 sel.cat3
  let dfCh4 := regionFilter df0 sel.region4
  let ch5 ← ch5Result df0
  let (lo, hi) ← parseSliderRange sel.slider
  let dfCh6 := ch6Filter df0 lo hi
  let dfCh7 := catFilter df0 sel.cat7
  pure { df := df0, dfCh1, dfCh2, dfCh3, dfCh4, ch5, dfCh6, dfCh7,
         dfLossRows := dfLoss df0, cumLoss := cumsumLossDf df0,
         ch10 := ch10LabelsValues df0 }

/-! ## Concrete example data -/

/-- A baseline enriched record for concrete instances. -/
def exRec : Record :=
  { orderDate := none, category := "Furniture", subCategory := "Chairs", region := "West",
    sales := some 10, profit := some 5, discount := some 0, year := none, month := none,
    profitMargin := FVal.fin 50, returned := "No" }

/-- A record whose returned flag came from a `True`/`False` encoding. -/
def exRecTrue : Record := { exRec with returned := "True" }

/-- Record with a given sub-category and profit. -/
def mkSub (sc : String) (p : ℚ) : Record := { exRec with subCategory := sc, profit := some p }

/-- Ten records over ten distinct sub-categories. -/
def exCh5 : List Record :=
  [mkSub "a" 1, mkSub "b" 2, mkSub "c" 3, mkSub "d" 4, mkSub "e" 5,
   mkSub "f" 6, mkSub "g" 7, mkSub "h" 8, mkSub "i" 9, mkSub "j" 10]

/-- Record with a given month bucket and profit. -/
def mkMonth (m : String) (p : ℚ) : Record := { exRec with month := some m, profit := some p }

/-- The spec's chapter-9 example: a loss of -50 in 2024-01 and -30 in
2024-02 (listed out of date order). -/
def exC4 : List Record := [mkMonth "2024-02" (-30), mkMonth "2024-01" (-50)]

/-- A dataset with zero returned-flagged records (and no losses). -/
def exNoReturns : List Record := [exRec]

/-- A raw row whose date cell no parser accepts. -/
def rawEx : RawRecord :=
  { orderDate := "not-a-date", category := "Furniture", subCategory := "Chairs",
    region := "West", sales := "10", profit := "5", discount := "0", returned := "No" }

/-- A date parser on which every cell fails (models `to_datetime` on
garbage input). -/
def noParseDate : String → Option Date := fun _ => none

/-- A numeric parser on which every cell fails. -/
def noParseNum : String → Option ℚ := fun _ => none

/-- One concrete set of widget selections. -/
def exSel : Selections :=
  { cat1 := "All", granularity := "Month", cat3 := "All", region4 := "All",
    slider := .num 0, cat7 := "All" }

/-- The state of the successful render pass on `exCh5` and `exSel`. -/
def exState : ScriptState :=
  ((runScript exCh5 exSel).toOption).getD
    ⟨[], [], [], [], [], [], [], [], [], [], ([], [])⟩

end MysteryDash

namespace MysteryDash

/-! # Theorems -/

/-- **C1, counterexample.** The claim says `Profit Margin %` is null
whenever the coerced Sales value is 0. On the code, a row with
`Profit = 5` and `Sales = 0` gets the float `+∞` — which `pd.isnull`
does not count as null — because `5.0 / 0.0` is `inf`, not NaN. -/
theorem profit_margin_null_counterexample :
    (profitMarginPct (some 5) (some 0)).isNull = false
    ∧ profitMarginPct (some 5) (some 0) = FVal.inf true := by
  constructor <;> decide

/-- **C1, amended.** `Profit Margin %` is null exactly when profit is
null, sales is null, or both are (non-null) zero; when sales is zero
and profit is a nonzero number the margin is a signed infinity (the
sign of profit) — not null, and in no undefined case is it the finite
value 0; when sales is a nonzero number the margin is exactly
`100 * profit / sales`. No case is an exception. -/
theorem profit_margin_amended (p s : Option ℚ) :
    ((profitMarginPct p s).isNull = true ↔
      p = none ∨ s = none ∨ (p = some 0 ∧ s = some 0))
    ∧ (∀ q : ℚ, p = some q → s = some 0 → q ≠ 0 →
        profitMarginPct p s = FVal.inf (0 < q))
    ∧ (∀ q r : ℚ, p = some q → s = some r → r ≠ 0 →
        profitMarginPct p s = FVal.fin (100 * q / r))
    ∧ ((s = none ∨ s = some 0) → profitMarginPct p s ≠ FVal.fin 0) := by
  refine ⟨?_, ?_, ?_, ?_⟩
  · cases p with
    | none => simp [profitMarginPct, FVal.isNull]
    | some q =>
      cases s with
      | none => simp [profitMarginPct, FVal.isNull]
      | some r =>
        by_cases hr : r = 0
        · subst hr
          by_cases hq : q = 0
          · subst hq; simp [profitMarginPct, FVal.isNull]
          · simp [profitMarginPct, FVal.isNull, hq]
        · simp [profitMarginPct, FVal.isNull, hr]
  · rintro q rfl rfl hq
    simp [profitMarginPct, hq]
  · rintro q r rfl rfl hr
    simp only [profitMarginPct, if_neg hr]
    exact congrArg FVal.fin (by ring)
  · rintro (rfl | rfl)
    · cases p <;> simp [profitMarginPct]
    · cases p with
      | none => simp [profitMarginPct]
      | some q =>
        by_cases hq : q = 0 <;> simp [profitMarginPct, hq]

/-- Witness for the amended C1: a row with profit 5 and sales 2 has
margin exactly 250 %. -/
theorem profit_margin_amended_witness :
    profitMarginPct (some 5) (some 2) = FVal.fin 250 := by
  have h := (profit_margin_amended (some 5) (some 2)).2.2.1 5 2 rfl rfl (by norm_num)
  rw [h]
  norm_num

/-- **C2 (code bug), evaluation at the failing input.** On a dataset
with zero returned-flagged rows, the chapter-10 output still contains
the `"Returns"` label, paired with the value 0: `Series.sum()` of the
empty selection is `0.0`, which `pd.notnull` accepts, so the guard
never omits the slice. -/
theorem returns_slice_present_without_returns :
    exNoReturns.filter returnedFlag = []
    ∧ ch10LabelsValues exNoReturns = (["Returns", "Heavy Discounts"], [0, 0]) := by
  constructor <;> decide

/-- Mutual exclusion of first-character tests for distinct characters. -/
theorem lowerStartsWith_excl (s : String) {c d : Char} (hcd : c ≠ d) :
    lowerStartsWith c s = true → lowerStartsWith d s = false := by
  unfold lowerStartsWith
  cases s.data with
  | nil => simp
  | cons a l =>
    simp only [beq_iff_eq]
    intro h
    simp [h, hcd]

/-- **C6, counterexample.** The claim says ingestion canonicalises the
returned flag so every later stage follows the case-insensitive
starts-with-Y-or-T rule. On the code, ingestion is a bare `astype(str)`
and the chapter-10 classifier tests only `startswith("y")`: the record
whose flag reads `"True"` satisfies the spec's Y/T rule but is not
classified as returned. -/
theorem returned_rule_counterexample :
    exRecTrue.returned = "True"
    ∧ specReturnedRule "True" = true
    ∧ returnedFlag exRecTrue = false := by
  refine ⟨rfl, ?_, ?_⟩ <;> decide

/-- **C6, amended.** Ingestion merely casts the flag to text; the
chapter-10 classifier counts a record as returned iff its lowercased
flag starts with `"y"`. This agrees with the spec's Y-or-T rule exactly
on values not starting with T/t (in particular on every Y/N encoding),
and disagrees precisely on T/t-prefixed values such as `"True"`, which
are never classified as returned. -/
theorem returned_rule_amended (r : Record) :
    (returnedFlag r = specReturnedRule r.returned ↔
      lowerStartsWith 't' r.returned = false)
    ∧ (lowerStartsWith 't' r.returned = true → returnedFlag r = false) := by
  have hty : lowerStartsWith 't' r.returned = true →
      lowerStartsWith 'y' r.returned = false :=
    lowerStartsWith_excl r.returned (by decide)
  constructor
  · by_cases ht : lowerStartsWith 't' r.returned = true
    · simp [returnedFlag, specReturnedRule, ht, hty ht]
    · simp only [Bool.not_eq_true] at ht
      simp [returnedFlag, specReturnedRule, ht]
  · intro ht
    simpa [returnedFlag] using hty ht

/-- Witness for the amended C6 at the `"True"`-flagged record. -/
theorem returned_rule_amended_witness :
    returnedFlag exRecTrue = false :=
  (returned_rule_amended exRecTrue).2 (by decide)

/-- **C7.** For any cell parsers and any raw row whose date cell fails
to parse (`errors="coerce"` returns NaT instead of raising), coercion
sets `Order Date` to null and the derived `Year` and `Month` fields of
the row are null — no default epoch date — and the batch keeps one
output row per input row. -/
theorem unparseable_date_nulls (parseDate : String → Option Date)
    (parseNum : String → Option ℚ) (rows : List RawRecord) (r : RawRecord)
    (h : parseDate r.orderDate = none) :
    (coerceEnrich parseDate parseNum r).orderDate = none
    ∧ (coerceEnrich parseDate parseNum r).year = none
    ∧ (coerceEnrich parseDate parseNum r).month = none
    ∧ (rows.map (coerceEnrich parseDate parseNum)).length = rows.length := by
  refine ⟨?_, ?_, ?_, by simp⟩ <;> simp [coerceEnrich, h]

/-- Witness for C7: a parser failing on `rawEx` yields null date, year
and month. -/
theorem unparseable_date_nulls_witness :
    (coerceEnrich noParseDate noParseNum rawEx).year = none
    ∧ (coerceEnrich noParseDate noParseNum rawEx).month = none :=
  ⟨(unparseable_date_nulls noParseDate noParseNum [] rawEx rfl).2.1,
   (unparseable_date_nulls noParseDate noParseNum [] rawEx rfl).2.2.1⟩

/-- **C9.** The chapter-6 slider handling: a 2-element tuple/list is
the `(low, high)` pair, a bare number `v` is `(v, v)`, any other shape
raises `RuntimeError` before any filtering happens, and the filter
keeps exactly the rows whose non-null discount lies in `[low, high]`,
both bounds inclusive. -/
theorem slider_shapes_and_discount_filter :
    (∀ a b : ℚ, parseSliderRange (.tup [a, b]) = .ok (a, b))
    ∧ (∀ v : ℚ, parseSliderRange (.num v) = .ok (v, v))
    ∧ (∀ l : List ℚ, l.length ≠ 2 →
        parseSliderRange (.tup l) = .error "Unexpected slider return value")
    ∧ parseSliderRange .other = .error "Unexpected slider return value"
    ∧ (∀ (rs : List Record) (v : SliderVal) (e : String),
        parseSliderRange v = .error e → ch6Step rs v = .error e)
    ∧ (∀ (rs : List Record) (lo hi : ℚ) (r : Record),
        r ∈ ch6Filter rs lo hi ↔
          r ∈ rs ∧ ∃ d, r.discount = some d ∧ lo ≤ d ∧ d ≤ hi) := by
  refine ⟨fun a b => rfl, fun v => rfl, ?_, rfl, ?_, ?_⟩
  · intro l h
    match l with
    | [] => rfl
    | [a] => rfl
    | [a, b] => exact absurd rfl h
    | a :: b :: c :: t => rfl
  · intro rs v e h
    simp [ch6Step, h]
  · intro rs lo hi r
    simp only [ch6Filter, List.mem_filter, discBetween]
    cases hd : r.discount with
    | none => simp
    | some d => simp [hd]

/-- Witness for C9: concrete slider shapes and one concrete filter
membership. -/
theorem slider_shapes_and_discount_filter_witness :
    parseSliderRange (.tup []) = .error "Unexpected slider return value"
    ∧ ch6Step [] .other = .error "Unexpected slider return value"
    ∧ (exRec ∈ ch6Filter [exRec] 0 1 ↔
        exRec ∈ [exRec] ∧ ∃ d, exRec.discount = some d ∧ 0 ≤ d ∧ d ≤ 1) :=
  ⟨slider_shapes_and_discount_filter.2.2.1 [] (by decide),
   slider_shapes_and_discount_filter.2.2.2.2.1 [] .other _ rfl,
   slider_shapes_and_discount_filter.2.2.2.2.2 [exRec] 0 1 exRec⟩

/-- Looking a key up in an association list whose value is a function of
the key: the result is that function's value iff the key occurs. -/
theorem lookup_keyed {α β : Type} [BEq α] [LawfulBEq α] (keys : List α)
    (f : α → β) (k : α) :
    (keys.map (fun x => (x, f x))).lookup k =
      if k ∈ keys then some (f k) else none := by
  induction keys with
  | nil => simp [List.lookup]
  | cons a t ih =>
    by_cases h : k = a
    · subst h
      simp [List.lookup_cons]
    · rw [List.map_cons, List.lookup_cons]
      have hba : (k == a) = false := beq_false_of_ne h
      simp [hba, ih, h]

/-- **C5.** For every category value `C` and region: filtering the
enriched table to `Category == C` and then grouping by `Region` with
summed `Sales`/`Profit` gives exactly the same aggregate row (and the
same absence of a row) as grouping the full table by
`(Category, Region)` and selecting the `C` slice. -/
theorem filter_group_slice_commute (rs : List Record) (c reg : String) :
    (grp3 (rs.filter (fun r => r.category == c))).lookup reg
      = (grpCatRegion rs).lookup (c, reg) := by
  rw [grp3, grpCatRegion, lookup_keyed, lookup_keyed]
  have hmem : reg ∈ sortedKeys ((rs.filter (fun r => r.category == c)).map (·.region)) ↔
      (c, reg) ∈ List.insertionSort pairLe (rs.map fun r => (r.category, r.region)).dedup := by
    simp only [sortedKeys, List.mem_insertionSort, List.mem_dedup, List.mem_map,
      List.mem_filter, beq_iff_eq, Prod.mk.injEq]
    constructor
    · rintro ⟨r, ⟨hr, hc⟩, hreg⟩
      exact ⟨r, hr, hc, hreg⟩
    · rintro ⟨r, hr, hc, hreg⟩
      exact ⟨r, ⟨hr, hc⟩, hreg⟩
  have hflt : (rs.filter (fun r => r.category == c)).filter (fun r => r.region == reg)
      = rs.filter (fun r => (r.category, r.region) == (c, reg)) := by
    rw [List.filter_filter]
    apply List.filter_congr
    intro r _
    rw [Bool.eq_iff_iff]
    simp [beq_iff_eq, Prod.ext_iff, and_comm]
  by_cases h : reg ∈ sortedKeys ((rs.filter (fun r => r.category == c)).map (·.region))
  · rw [if_pos h, if_pos (hmem.mp h), hflt]
  · rw [if_neg h, if_neg (fun hy => h (hmem.mpr hy))]

/-- `strLtL` is irreflexive. -/
theorem strLtL_irrefl (l : List Char) : strLtL l l = false := by
  induction l with
  | nil => rfl
  | cons a as ih => simp [strLtL, ih]

/-- `strLtL` is transitive. -/
theorem strLtL_trans : ∀ {l1 l2 l3 : List Char}, strLtL l1 l2 = true →
    strLtL l2 l3 = true → strLtL l1 l3 = true := by
  intro l1
  induction l1 with
  | nil =>
    intro l2 l3 h1 h2
    cases l2 with
    | nil => simp [strLtL] at h1
    | cons b bs =>
      cases l3 with
      | nil => simp [strLtL] at h2
      | cons c cs => rfl
  | cons a as ih =>
    intro l2 l3 h1 h2
    cases l2 with
    | nil => simp [strLtL] at h1
    | cons b bs =>
      cases l3 with
      | nil => simp [strLtL] at h2
      | cons c cs =>
        by_cases hab : a < b
        · by_cases hbc : b < c
          · simp [strLtL, lt_trans hab hbc]
          · by_cases hcb : c < b
            · rw [strLtL, if_neg hbc, if_pos hcb] at h2
              exact absurd h2 (by simp)
            · have hbceq : b = c := le_antisymm (not_lt.mp hcb) (not_lt.mp hbc)
              subst hbceq
              simp [strLtL, hab]
        · by_cases hba : b < a
          · rw [strLtL, if_neg hab, if_pos hba] at h1
            exact absurd h1 (by simp)
          · have habeq : a = b := le_antisymm (not_lt.mp hba) (not_lt.mp hab)
            subst habeq
            rw [strLtL, if_neg (lt_irrefl a), if_neg (lt_irrefl a)] at h1
            by_cases hac : a < c
            · simp [strLtL, hac]
            · by_cases hca : c < a
              · rw [strLtL, if_neg hac, if_pos hca] at h2
                exact absurd h2 (by simp)
              · have haceq : a = c := le_antisymm (not_lt.mp hca) (not_lt.mp hac)
                subst haceq
                rw [strLtL, if_neg (lt_irrefl a), if_neg (lt_irrefl a)] at h2 ⊢
                exact ih h1 h2

/-- Char lists that compare `false` both ways are equal. -/
theorem strLtL_connex : ∀ {l1 l2 : List Char}, strLtL l1 l2 = false →
    strLtL l2 l1 = false → l1 = l2 := by
  intro l1
  induction l1 with
  | nil =>
    intro l2 h1 _
    cases l2 with
    | nil => rfl
    | cons b bs => simp [strLtL] at h1
  | cons a as ih =>
    intro l2 h1 h2
    cases l2 with
    | nil => simp [strLtL] at h2
    | cons b bs =>
      by_cases hab : a < b
      · rw [strLtL, if_pos hab] at h1
        exact absurd h1 (by simp)
      · by_cases hba : b < a
        · rw [strLtL, if_pos hba] at h2
          exact absurd h2 (by simp)
        · have habeq : a = b := le_antisymm (not_lt.mp hba) (not_lt.mp hab)
          subst habeq
          rw [strLtL, if_neg (lt_irrefl a), if_neg (lt_irrefl a)] at h1 h2
          rw [ih h1 h2]

/-- `strLt` is irreflexive. -/
theorem strLt_irrefl (a : String) : strLt a a = false := strLtL_irrefl a.data

/-- `strLt` is asymmetric. -/
theorem strLt_asymm {a b : String} (h : strLt a b = true) :
    strLt b a = false := by
  cases hc : strLt b a with
  | false => rfl
  | true =>
    have habs : strLtL a.data a.data = true := strLtL_trans h hc
    rw [strLtL_irrefl] at habs
    exact absurd habs (by simp)

/-- Strings that compare `false` both ways are equal. -/
theorem strLt_connex {a b : String} (h1 : strLt a b = false)
    (h2 : strLt b a = false) : a = b := by
  have hd := strLtL_connex h1 h2
  obtain ⟨d1⟩ := a
  obtain ⟨d2⟩ := b
  exact congrArg String.mk hd

/-- A `strLe`-sorted duplicate-free list is strictly `strLt`-sorted. -/
theorem sorted_strLt_of_sorted_le_nodup {l : List String}
    (h1 : l.Sorted (fun a b => strLe a b = true)) (h2 : l.Nodup) :
    l.Sorted (fun a b => strLt a b = true) :=
  (h1.and h2).imp fun {a b} h => by
    obtain ⟨hle, hne⟩ := h
    simp only [strLe, Bool.not_eq_true'] at hle
    cases hab : strLt a b with
    | true => rfl
    | false => exact absurd (strLt_connex hab hle) hne

/-- Permutation-invariance of the profit sum. -/
theorem sumProfit_perm {l1 l2 : List Record} (h : List.Perm l1 l2) :
    sumProfit l1 = sumProfit l2 :=
  (h.map profitOf).sum_eq

/-- The chapter-9 month keys are strictly ascending in lexicographic
order. -/
theorem monthKeys_sorted (rs : List Record) :
    (monthKeys rs).Sorted (fun a b => strLt a b = true) := by
  unfold monthKeys sortedKeys
  haveI htot : IsTotal String (fun a b => strLe a b = true) := by
    refine ⟨fun a b => ?_⟩
    cases h : strLt b a with
    | false => exact Or.inl (by simp [strLe, h])
    | true => exact Or.inr (by simp [strLe, strLt_asymm h])
  haveI htrans : IsTrans String (fun a b => strLe a b = true) := by
    refine ⟨fun a b c h1 h2 => ?_⟩
    simp only [strLe, Bool.not_eq_true'] at h1 h2 ⊢
    cases hca : strLt c a with
    | false => rfl
    | true =>
      cases hbc : strLt b c with
      | true =>
        have hct : strLt b a = true := strLtL_trans hbc hca
        rw [hct] at h1
        exact absurd h1 (by simp)
      | false =>
        have hbeq : b = c := strLt_connex hbc h2
        subst hbeq
        rw [hca] at h1
        exact absurd h1 (by simp)
  refine sorted_strLt_of_sorted_le_nodup (List.sorted_insertionSort _ _) ?_
  exact ((List.perm_insertionSort _ _).nodup_iff).mpr (List.nodup_dedup _)

/-- A month key occurs iff some loss row carries that month bucket. -/
theorem mem_monthKeys {rs : List Record} {m : String} :
    m ∈ monthKeys rs ↔ ∃ r ∈ lossRows rs, r.month = some m := by
  unfold monthKeys sortedKeys dfLoss
  rw [List.mem_insertionSort, List.mem_dedup, List.mem_filterMap]
  constructor
  · rintro ⟨r, hr, hm⟩
    exact ⟨r, ((List.perm_insertionSort _ _).mem_iff).mp hr, hm⟩
  · rintro ⟨r, hr, hm⟩
    exact ⟨r, ((List.perm_insertionSort _ _).mem_iff).mpr hr, hm⟩

/-- `cumAcc` keeps the key column unchanged. -/
theorem cumAcc_map_fst (l : List (String × ℚ)) :
    ∀ acc, (cumAcc acc l).map Prod.fst = l.map Prod.fst := by
  induction l with
  | nil => intro acc; simp [cumAcc]
  | cons hd t ih =>
    intro acc
    obtain ⟨m, v⟩ := hd
    simp [cumAcc, ih]

/-- `cumAcc` over strictly sorted keys: every produced entry holds the
target running total `S` of its key, provided `S` decomposes as the
accumulator plus the bucket values of all keys `≤` it. -/
theorem cumAcc_spec (B S : String → ℚ) :
    ∀ (keys : List String) (acc : ℚ),
      keys.Sorted (fun a b => strLt a b = true) →
      (∀ m ∈ keys,
        S m = acc + ((keys.filter fun k => strLe k m).map B).sum) →
      ∀ p ∈ cumAcc acc (keys.map fun m => (m, B m)),
        p.2 = S p.1 ∧ p.1 ∈ keys := by
  intro keys
  induction keys with
  | nil => intro acc _ _ p hp; simp [cumAcc] at hp
  | cons k t ih =>
    intro acc hsort hS p hp
    rw [List.map_cons, cumAcc] at hp
    rcases List.mem_cons.mp hp with heq | hp2
    · subst heq
      refine ⟨?_, List.mem_cons_self k t⟩
      have hSk := hS k (List.mem_cons_self k t)
      have htfilt : t.filter (fun x => strLe x k) = [] := by
        rw [List.filter_eq_nil_iff]
        intro a ha
        have hlt : strLt k a = true := (List.pairwise_cons.mp hsort).1 a ha
        simp [strLe, hlt]
      rw [List.filter_cons, if_pos (by simp [strLe, strLt_irrefl]), htfilt] at hSk
      simp only [List.map_cons, List.map_nil, List.sum_cons, List.sum_nil,
        add_zero] at hSk
      exact hSk.symm
    · have hsort2 : t.Sorted (fun a b => strLt a b = true) := hsort.of_cons
      have hS2 : ∀ m ∈ t,
          S m = (acc + B k) + ((t.filter fun x => strLe x m).map B).sum := by
        intro m hm
        have hkm : strLt k m = true := (List.pairwise_cons.mp hsort).1 m hm
        have h1 := hS m (List.mem_cons_of_mem k hm)
        rw [List.filter_cons, if_pos (by simp [strLe, strLt_asymm hkm]),
          List.map_cons, List.sum_cons] at h1
        rw [h1]; ring
      have hres := ih (acc + B k) hsort2 hS2 p hp2
      exact ⟨hres.1, List.mem_cons_of_mem k hres.2⟩

/-- Summing `(if m2 = k then c else 0) + g k` over distinct keys: the
`c` appears once iff `m2` occurs. -/
theorem sum_map_ite_single {K : List String} (hnd : K.Nodup) (m2 : String)
    (c : ℚ) (g : String → ℚ) :
    (K.map fun k => (if m2 = k then c else 0) + g k).sum
      = (if m2 ∈ K then c else 0) + (K.map g).sum := by
  induction K with
  | nil => simp
  | cons a t ih =>
    rw [List.map_cons, List.sum_cons, List.map_cons, List.sum_cons,
      ih (List.Nodup.of_cons hnd)]
    by_cases h : m2 = a
    · subst h
      have hnotin : m2 ∉ t := (List.nodup_cons.mp hnd).1
      rw [if_pos rfl, if_neg hnotin, if_pos (List.mem_cons_self m2 t)]
      ring
    · rw [if_neg h]
      by_cases hm : m2 ∈ t
      · rw [if_pos hm, if_pos (List.mem_cons_of_mem a hm)]; ring
      · rw [if_neg hm, if_neg (by
          rw [List.mem_cons]
          rintro (h1 | h2)
          · exact h h1
          · exact hm h2)]
        ring

/-- Partition of a profit sum over month buckets: summing the per-month
bucket sums over all keys `≤ m` equals summing directly over the rows
dated in or before `m`, provided the key list is duplicate-free and
covers every non-null month of the rows. -/
theorem bucket_partition (L : List Record) (K : List String) (hnd : K.Nodup)
    (hcov : ∀ r ∈ L, ∀ m2, r.month = some m2 → m2 ∈ K) (m : String) :
    ((K.filter fun k => strLe k m).map
        (fun k => sumProfit (L.filter fun r => r.month == some k))).sum
      = sumProfit (L.filter fun r => monthLeB r m) := by
  induction L with
  | nil => simp [sumProfit]
  | cons r t ih =>
    have hcov2 : ∀ r2 ∈ t, ∀ m2, r2.month = some m2 → m2 ∈ K :=
      fun r2 h => hcov r2 (List.mem_cons_of_mem r h)
    cases hm : r.month with
    | none =>
      have h1 : ∀ k, (r :: t).filter (fun r2 => r2.month == some k)
          = t.filter (fun r2 => r2.month == some k) := by
        intro k
        rw [List.filter_cons, if_neg (by simp [hm])]
      have h2 : (r :: t).filter (fun r2 => monthLeB r2 m)
          = t.filter (fun r2 => monthLeB r2 m) := by
        rw [List.filter_cons, if_neg (by simp [monthLeB, hm])]
      rw [List.map_congr_left (fun k _ => by rw [h1 k]), h2]
      exact ih hcov2
    | some m2 =>
      have hm2K : m2 ∈ K := hcov r (List.mem_cons_self r t) m2 hm
      have hinner : ∀ k, sumProfit ((r :: t).filter fun r2 => r2.month == some k)
          = (if m2 = k then profitOf r else 0)
            + sumProfit (t.filter fun r2 => r2.month == some k) := by
        intro k
        rw [List.filter_cons]
        by_cases hk : m2 = k
        · subst hk
          rw [if_pos (by simp [hm]), if_pos rfl]
          simp [sumProfit]
        · rw [if_neg (by simp [hm, hk]), if_neg hk, zero_add]
      have hKF : (K.filter fun k => strLe k m).Nodup := hnd.filter _
      rw [List.map_congr_left (fun k _ => hinner k),
        sum_map_ite_single hKF m2 (profitOf r) _]
      by_cases hle : strLe m2 m = true
      · have hmemf : m2 ∈ K.filter (fun k => strLe k m) :=
          List.mem_filter.mpr ⟨hm2K, hle⟩
        rw [if_pos hmemf, ih hcov2, List.filter_cons,
          if_pos (by simp only [monthLeB, hm]; exact hle)]
        simp [sumProfit]
      · have hmemf : m2 ∉ K.filter (fun k => strLe k m) := by
          intro hc
          exact hle (List.mem_filter.mp hc).2
        rw [if_neg hmemf, zero_add, ih hcov2, List.filter_cons,
          if_neg (by simp only [monthLeB, hm]; exact hle)]

/-- **C4.** The chapter-9 cumulative-loss series: keys strictly
ascending (lexicographic on the `"YYYY-MM"` strings), every key backed
by an actual negative-profit record of the dataset, every value equal
to the total profit of all negative-profit records dated in or before
that key, and on the spec's example (losses of -50 in `"2024-01"` and
-30 in `"2024-02"`) the series is exactly
`[("2024-01", -50), ("2024-02", -80)]`. -/
theorem cumsum_loss_spec (rs : List Record) :
    ((cumsumLossDf rs).map Prod.fst).Sorted (fun a b => strLt a b = true)
    ∧ (∀ p ∈ cumsumLossDf rs, p.2 = lossUpTo rs p.1)
    ∧ (∀ p ∈ cumsumLossDf rs, ∃ r ∈ rs, isLoss r = true ∧ r.month = some p.1)
    ∧ cumsumLossDf exC4 = [("2024-01", -50), ("2024-02", -80)] := by
  have hconc : cumsumLossDf exC4 = [("2024-01", -50), ("2024-02", -80)] := by
    simp [cumsumLossDf, monthKeys, sortedKeys, dfLoss, lossRows, exC4, mkMonth,
      exRec, isLoss, bucketSum, sumProfit, profitOf, cumAcc, List.insertionSort,
      List.orderedInsert, strLe, strLt, strLtL, recDateLe, List.filter_cons]
    norm_num
  have hperm : List.Perm (dfLoss rs) (lossRows rs) := List.perm_insertionSort _ _
  have hsorted := monthKeys_sorted rs
  have hnd : (monthKeys rs).Nodup := by
    unfold monthKeys sortedKeys
    exact ((List.perm_insertionSort _ _).nodup_iff).mpr (List.nodup_dedup _)
  have hup : ∀ m, lossUpTo rs m
      = sumProfit ((dfLoss rs).filter fun r => monthLeB r m) :=
    fun m => (sumProfit_perm (hperm.filter _)).symm
  have hcov : ∀ r ∈ dfLoss rs, ∀ m2, r.month = some m2 → m2 ∈ monthKeys rs :=
    fun r hr m2 hm2 => mem_monthKeys.mpr ⟨r, (hperm.mem_iff).mp hr, hm2⟩
  have hpremise : ∀ m ∈ monthKeys rs, lossUpTo rs m
      = 0 + (((monthKeys rs).filter fun k => strLe k m).map (bucketSum rs)).sum := by
    intro m _
    rw [zero_add, hup m]
    exact (bucket_partition (dfLoss rs) (monthKeys rs) hnd hcov m).symm
  have hmain : ∀ p ∈ cumsumLossDf rs, p.2 = lossUpTo rs p.1 ∧ p.1 ∈ monthKeys rs :=
    cumAcc_spec (bucketSum rs) (lossUpTo rs) (monthKeys rs) 0 hsorted hpremise
  refine ⟨?_, fun p hp => (hmain p hp).1, ?_, hconc⟩
  · have hfst : (cumsumLossDf rs).map Prod.fst = monthKeys rs := by
      rw [cumsumLossDf, cumAcc_map_fst, List.map_map]
      exact List.map_id _
    rw [hfst]
    exact hsorted
  · intro p hp
    obtain ⟨r, hr, hm⟩ := mem_monthKeys.mp (hmain p hp).2
    have hmem := List.mem_filter.mp hr
    exact ⟨r, hmem.1, hmem.2, hm⟩

/-- Witness for C4 at the spec's example dataset. -/
theorem cumsum_loss_spec_witness :
    ("2024-01", (-50 : ℚ)) ∈ cumsumLossDf exC4
    ∧ (-50 : ℚ) = lossUpTo exC4 "2024-01" := by
  have hmem : ("2024-01", (-50 : ℚ)) ∈ cumsumLossDf exC4 := by
    rw [(cumsum_loss_spec exC4).2.2.2]
    exact List.mem_cons_self _ _
  exact ⟨hmem, (cumsum_loss_spec exC4).2.1 _ hmem⟩

/-- A nonempty list of strictly negative rationals has a negative sum. -/
theorem sum_neg_of_all_neg : ∀ {l : List ℚ}, l ≠ [] → (∀ x ∈ l, x < 0) →
    l.sum < 0 := by
  intro l
  induction l with
  | nil => intro h _; exact absurd rfl h
  | cons a t ih =>
    intro _ h
    cases t with
    | nil => simpa using h a (List.mem_cons_self a [])
    | cons b u =>
      have ht := ih (by simp) (fun x hx => h x (List.mem_cons_of_mem a hx))
      have ha := h a (List.mem_cons_self a (b :: u))
      rw [List.sum_cons]
      linarith

/-- Every month bucket of the chapter-9 grouping sums only strictly
negative profits of a nonempty row set, so the bucket sum is negative. -/
theorem bucketSum_neg {rs : List Record} {m : String} (hm : m ∈ monthKeys rs) :
    bucketSum rs m < 0 := by
  obtain ⟨r, hr, hmr⟩ := mem_monthKeys.mp hm
  have hperm : List.Perm (dfLoss rs) (lossRows rs) := List.perm_insertionSort _ _
  have hrL : r ∈ dfLoss rs := hperm.mem_iff.mpr hr
  have hrf : r ∈ (dfLoss rs).filter (fun r2 => r2.month == some m) :=
    List.mem_filter.mpr ⟨hrL, by simp [hmr]⟩
  unfold bucketSum sumProfit
  apply sum_neg_of_all_neg
  · intro hc
    rw [List.map_eq_nil_iff] at hc
    rw [hc] at hrf
    exact absurd hrf (List.not_mem_nil r)
  · intro x hx
    obtain ⟨r2, hr2, rfl⟩ := List.mem_map.mp hx
    have h2 := (List.mem_filter.mp hr2).1
    have h3 := (List.mem_filter.mp (hperm.mem_iff.mp h2)).2
    cases hp : r2.profit with
    | none => simp [isLoss, hp] at h3
    | some q =>
      have hq : q < 0 := by simpa [isLoss, hp] using h3
      simpa [profitOf, hp] using hq

/-- A running sum over entries with negative values strictly decreases. -/
theorem cumAcc_chain : ∀ (l : List (String × ℚ)) (acc : ℚ),
    (∀ p ∈ l, p.2 < 0) →
    List.Chain' (fun a b => b < a) ((cumAcc acc l).map Prod.snd) := by
  intro l
  induction l with
  | nil => intro acc _; simp [cumAcc]
  | cons hd t ih =>
    intro acc hneg
    obtain ⟨m, v⟩ := hd
    rw [cumAcc, List.map_cons, List.chain'_cons']
    constructor
    · intro y hy
      cases t with
      | nil => simp [cumAcc] at hy
      | cons hd2 t2 =>
        obtain ⟨m2, v2⟩ := hd2
        rw [cumAcc, List.map_cons] at hy
        simp only [List.head?_cons, Option.mem_def, Option.some.injEq] at hy
        have hv2 : v2 < 0 :=
          hneg (m2, v2) (List.mem_cons_of_mem _ (List.mem_cons_self _ _))
        show y < acc + v
        rw [← hy]
        linarith
    · exact ih (acc + v) (fun p hp => hneg p (List.mem_cons_of_mem _ hp))

/-- **C10.** When the dataset has a negative-profit record (indeed,
unconditionally), each contributing month bucket of the chapter-9
series sums only strictly negative profits, and the cumulative-loss
values strictly decrease: every entry after the first is strictly less
than its predecessor. -/
theorem cumsum_loss_strict_decreasing (rs : List Record)
    (h : ∃ r ∈ rs, isLoss r = true) :
    (∀ m ∈ monthKeys rs, bucketSum rs m < 0)
    ∧ List.Chain' (fun a b => b < a) ((cumsumLossDf rs).map Prod.snd) := by
  refine ⟨fun m hm => bucketSum_neg hm, ?_⟩
  rw [cumsumLossDf]
  apply cumAcc_chain
  intro p hp
  obtain ⟨m, hm, rfl⟩ := List.mem_map.mp hp
  exact bucketSum_neg hm

/-- Witness for C10 at the two-loss example dataset. -/
theorem cumsum_loss_strict_decreasing_witness :
    List.Chain' (fun a b => b < a) ((cumsumLossDf exC4).map Prod.snd) :=
  (cumsum_loss_strict_decreasing exC4 (by decide)).2

/-- **C3.** With at least 10 distinct sub-categories, the chapter-5
result is a successful 10-row frame of pairwise-distinct
sub-categories, exactly 8 rows tagged `"Top"` and 2 tagged `"Bottom"`,
sorted ascending by summed profit in the plotted order, with every
`"Top"` row's profit at least every `"Bottom"` row's profit. -/
theorem top_bottom_ranking (rs : List Record)
    (h : 10 ≤ ((rs.map (·.subCategory)).dedup).length) :
    ∃ out, ch5Result rs = .ok out
      ∧ out.length = 10
      ∧ (out.map (fun x => x.1.1)).Nodup
      ∧ (out.filter (fun x => x.2 == "Top")).length = 8
      ∧ (out.filter (fun x => x.2 == "Bottom")).length = 2
      ∧ (out.map (fun x => x.1.2)).Sorted (· ≤ ·)
      ∧ ∀ x ∈ out, ∀ y ∈ out, x.2 = "Top" → y.2 = "Bottom" →
          y.1.2 ≤ x.1.2 := by
  have hglen : (grp5 rs).length = ((rs.map (·.subCategory)).dedup).length := by
    unfold grp5 sortedKeys
    rw [List.length_insertionSort, List.length_map, List.length_insertionSort]
  have h10 : 10 ≤ (grp5 rs).length := by rw [hglen]; exact h
  have hA : ((grp5 rs).take 8).length = 8 := by rw [List.length_take]; omega
  have hB : ((grp5 rs).drop ((grp5 rs).length - 2)).length = 2 := by
    rw [List.length_drop]; omega
  have hcomb :
      ((grp5 rs).take 8 ++ (grp5 rs).drop ((grp5 rs).length - 2)).length = 10 := by
    rw [List.length_append, hA, hB]
  have htags : ch5Tags.length = 10 := by decide
  have hcombined : ch5Combined rs
      = .ok (((grp5 rs).take 8 ++ (grp5 rs).drop ((grp5 rs).length - 2)).zip ch5Tags) := by
    unfold ch5Combined
    rw [if_pos hcomb]
  have hres : ch5Result rs = .ok (List.insertionSort ascByProfit
      (((grp5 rs).take 8 ++ (grp5 rs).drop ((grp5 rs).length - 2)).zip ch5Tags)) := by
    unfold ch5Result
    rw [hcombined]
    rfl
  set comb := (grp5 rs).take 8 ++ (grp5 rs).drop ((grp5 rs).length - 2) with hcombdef
  set out := List.insertionSort ascByProfit (comb.zip ch5Tags) with houtdef
  have hperm : List.Perm out (comb.zip ch5Tags) := List.perm_insertionSort _ _
  have hzipfst : (comb.zip ch5Tags).map Prod.fst = comb :=
    List.map_fst_zip _ _ (by rw [hcomb, htags])
  have hgsorted : (grp5 rs).Sorted descByProfit := List.sorted_insertionSort _ _
  have hgkeys : ((grp5 rs).map Prod.fst).Nodup := by
    have hpre : List.Perm ((grp5 rs).map Prod.fst)
        (((sortedKeys (rs.map (·.subCategory))).map
          (fun k => (k, sumProfit (rs.filter (fun r => r.subCategory == k))))).map
            Prod.fst) :=
      (List.perm_insertionSort _ _).map _
    rw [List.map_map] at hpre
    have hid : ((sortedKeys (rs.map (·.subCategory))).map
        (Prod.fst ∘ fun k => (k, sumProfit (rs.filter (fun r => r.subCategory == k)))))
        = sortedKeys (rs.map (·.subCategory)) := List.map_id _
    rw [hid] at hpre
    have hsknd : (sortedKeys (rs.map (·.subCategory))).Nodup := by
      unfold sortedKeys
      exact ((List.perm_insertionSort _ _).nodup_iff).mpr (List.nodup_dedup _)
    exact hpre.nodup_iff.mpr hsknd
  have hdd : (grp5 rs).drop ((grp5 rs).length - 2)
      = ((grp5 rs).drop 8).drop ((grp5 rs).length - 10) := by
    rw [List.drop_drop]
    congr 1
    omega
  have hsubl : List.Sublist comb (grp5 rs) := by
    rw [hcombdef]
    have h4 : List.Sublist
        ((grp5 rs).take 8 ++ (grp5 rs).drop ((grp5 rs).length - 2))
        ((grp5 rs).take 8 ++ (grp5 rs).drop 8) := by
      refine List.Sublist.append_left ?_ _
      rw [hdd]
      exact List.drop_sublist _ _
    rwa [List.take_append_drop] at h4
  have hzsplit : comb.zip ch5Tags
      = ((grp5 rs).take 8).zip (List.replicate 8 "Top")
        ++ ((grp5 rs).drop ((grp5 rs).length - 2)).zip (List.replicate 2 "Bottom") := by
    rw [hcombdef]
    exact List.zip_append (by rw [hA, List.length_replicate])
  refine ⟨out, hres, ?_, ?_, ?_, ?_, ?_, ?_⟩
  · rw [houtdef, List.length_insertionSort, List.length_zip, hcomb, htags]
    decide
  · have hcombfst : (comb.map Prod.fst).Nodup :=
      List.Nodup.sublist (hsubl.map Prod.fst) hgkeys
    have hpermfst : List.Perm (out.map Prod.fst) comb := by
      have htmp := hperm.map Prod.fst
      rwa [hzipfst] at htmp
    have hperm2 : List.Perm ((out.map Prod.fst).map Prod.fst) (comb.map Prod.fst) :=
      hpermfst.map _
    rw [List.map_map] at hperm2
    have hgoal : out.map (fun x => x.1.1) = out.map (Prod.fst ∘ Prod.fst) := rfl
    rw [hgoal]
    exact hperm2.nodup_iff.mpr hcombfst
  · rw [← List.countP_eq_length_filter, hperm.countP_eq, hzsplit,
      List.countP_append]
    have hallA : ∀ a ∈ ((grp5 rs).take 8).zip (List.replicate 8 "Top"),
        (fun x : (String × ℚ) × String => x.2 == "Top") a = true := by
      intro a ha
      obtain ⟨av, atag⟩ := a
      have hmem := (List.of_mem_zip ha).2
      rw [List.mem_replicate] at hmem
      simp [hmem.2]
    have hzeroB : (((grp5 rs).drop ((grp5 rs).length - 2)).zip
        (List.replicate 2 "Bottom")).countP
          (fun x : (String × ℚ) × String => x.2 == "Top") = 0 := by
      rw [List.countP_eq_zero]
      intro a ha
      obtain ⟨av, atag⟩ := a
      have hmem := (List.of_mem_zip ha).2
      rw [List.mem_replicate] at hmem
      simp [hmem.2]
    rw [List.countP_eq_length.mpr hallA, hzeroB, List.length_zip, hA,
      List.length_replicate]
    decide
  · rw [← List.countP_eq_length_filter, hperm.countP_eq, hzsplit,
      List.countP_append]
    have hzeroA : (((grp5 rs).take 8).zip (List.replicate 8 "Top")).countP
        (fun x : (String × ℚ) × String => x.2 == "Bottom") = 0 := by
      rw [List.countP_eq_zero]
      intro a ha
      obtain ⟨av, atag⟩ := a
      have hmem := (List.of_mem_zip ha).2
      rw [List.mem_replicate] at hmem
      simp [hmem.2]
    have hallB : ∀ a ∈ ((grp5 rs).drop ((grp5 rs).length - 2)).zip
        (List.replicate 2 "Bottom"),
        (fun x : (String × ℚ) × String => x.2 == "Bottom") a = true := by
      intro a ha
      obtain ⟨av, atag⟩ := a
      have hmem := (List.of_mem_zip ha).2
      rw [List.mem_replicate] at hmem
      simp [hmem.2]
    rw [List.countP_eq_length.mpr hallB, hzeroA, List.length_zip, hB,
      List.length_replicate]
    decide
  · have hsout : out.Sorted ascByProfit := List.sorted_insertionSort _ _
    exact List.pairwise_map.mpr hsout
  · intro x hx y hy hxt hyb
    have hx2 : x ∈ comb.zip ch5Tags := hperm.mem_iff.mp hx
    have hy2 : y ∈ comb.zip ch5Tags := hperm.mem_iff.mp hy
    rw [hzsplit, List.mem_append] at hx2 hy2
    obtain ⟨xv, xt⟩ := x
    obtain ⟨yv, yt⟩ := y
    have hxt2 : xt = "Top" := hxt
    have hyb2 : yt = "Bottom" := hyb
    have hxA : xv ∈ (grp5 rs).take 8 := by
      rcases hx2 with hxa | hxb
      · exact (List.of_mem_zip hxa).1
      · have hmem := (List.of_mem_zip hxb).2
        rw [List.mem_replicate] at hmem
        exact absurd (hxt2.symm.trans hmem.2) (by decide)
    have hyB : yv ∈ (grp5 rs).drop ((grp5 rs).length - 2) := by
      rcases hy2 with hya | hyb3
      · have hmem := (List.of_mem_zip hya).2
        rw [List.mem_replicate] at hmem
        exact absurd (hyb2.symm.trans hmem.2) (by decide)
      · exact (List.of_mem_zip hyb3).1
    have hyB8 : yv ∈ (grp5 rs).drop 8 := by
      rw [hdd] at hyB
      exact List.mem_of_mem_drop hyB
    have hcross : ∀ a ∈ (grp5 rs).take 8, ∀ b ∈ (grp5 rs).drop 8,
        descByProfit a b := by
      have hp : List.Pairwise descByProfit
          ((grp5 rs).take 8 ++ (grp5 rs).drop 8) := by
        rw [List.take_append_drop]
        exact hgsorted
      exact (List.pairwise_append.mp hp).2.2
    exact hcross xv hxA yv hyB8

/-- Witness for C3 on ten records over ten distinct sub-categories. -/
theorem top_bottom_ranking_witness :
    10 ≤ ((exCh5.map (·.subCategory)).dedup).length
    ∧ ∃ out, ch5Result exCh5 = .ok out ∧ out.length = 10 :=
  ⟨by decide, by
    obtain ⟨out, h1, h2, _⟩ := top_bottom_ranking exCh5 (by decide)
    exact ⟨out, h1, h2⟩⟩

/-- Inversion of a successful `Except` bind. -/
theorem except_bind_ok {α β : Type} {e : Except String α}
    {f : α → Except String β} {b : β} (h : (e >>= f) = .ok b) :
    ∃ a, e = .ok a ∧ f a = .ok b := by
  cases e with
  | error s => exact Except.noConfusion h
  | ok a => exact ⟨a, rfl, h⟩

/-- The category filter only selects rows from its input. -/
theorem catFilter_sublist (rs : List Record) (c : String) :
    List.Sublist (catFilter rs c) rs := by
  unfold catFilter
  split
  · exact List.Sublist.refl rs
  · exact List.filter_sublist rs

/-- The region filter only selects rows from its input. -/
theorem regionFilter_sublist (rs : List Record) (c : String) :
    List.Sublist (regionFilter rs c) rs := by
  unfold regionFilter
  split
  · exact List.Sublist.refl rs
  · exact List.filter_sublist rs

/-- With at least 10 distinct sub-categories the chapter-5 step
succeeds. -/
theorem ch5Result_ok (rs : List Record)
    (h : 10 ≤ ((rs.map (·.subCategory)).dedup).length) :
    ∃ out, ch5Result rs = .ok out := by
  have hglen : (grp5 rs).length = ((rs.map (·.subCategory)).dedup).length := by
    unfold grp5 sortedKeys
    rw [List.length_insertionSort, List.length_map, List.length_insertionSort]
  have h10 : 10 ≤ (grp5 rs).length := by rw [hglen]; exact h
  have hcomb :
      ((grp5 rs).take 8 ++ (grp5 rs).drop ((grp5 rs).length - 2)).length = 10 := by
    rw [List.length_append, List.length_take, List.length_drop]
    omega
  have hok : ch5Result rs = .ok (List.insertionSort ascByProfit
      (((grp5 rs).take 8 ++ (grp5 rs).drop ((grp5 rs).length - 2)).zip ch5Tags)) := by
    unfold ch5Result ch5Combined
    rw [if_pos hcomb]
    rfl
  exact ⟨_, hok⟩

/-- **C8.** Over a whole successful render pass, the base table `df` is
exactly the value it had after enrichment — no chapter's filter step
mutates it — every chapter frame is derived from that same canonical
table, and each filter output merely selects rows of it (category,
region and discount filters are sublists; the loss frame's rows all
come from the base table). -/
theorem filters_leave_base_unchanged (df0 : List Record) (sel : Selections)
    (st : ScriptState) (h : runScript df0 sel = Except.ok st) :
    st.df = df0
    ∧ List.Sublist st.dfCh1 df0
    ∧ st.dfCh2 = df0
    ∧ List.Sublist st.dfCh3 df0
    ∧ List.Sublist st.dfCh4 df0
    ∧ List.Sublist st.dfCh6 df0
    ∧ List.Sublist st.dfCh7 df0
    ∧ (∀ r ∈ st.dfLossRows, r ∈ df0) := by
  unfold runScript at h
  obtain ⟨ch5v, hc, h⟩ := except_bind_ok h
  obtain ⟨lohi, hp, h⟩ := except_bind_ok h
  obtain ⟨lo, hi⟩ := lohi
  injection h with h2
  subst h2
  refine ⟨rfl, catFilter_sublist df0 sel.cat1, rfl,
    catFilter_sublist df0 sel.cat3, regionFilter_sublist df0 sel.region4,
    List.filter_sublist df0, catFilter_sublist df0 sel.cat7, ?_⟩
  intro r hr
  have h1 : r ∈ lossRows df0 := (List.perm_insertionSort _ _).mem_iff.mp hr
  exact (List.mem_filter.mp h1).1

/-- Witness for C8: a successful pass on the ten-record dataset, with
the base table returned unchanged. -/
theorem filters_leave_base_unchanged_witness :
    ∃ st, runScript exCh5 exSel = Except.ok st
      ∧ st.df = exCh5 ∧ List.Sublist st.dfCh1 exCh5 := by
  obtain ⟨out, hout⟩ := ch5Result_ok exCh5 (by decide)
  have hrun : runScript exCh5 exSel = Except.ok
      { df := exCh5, dfCh1 := catFilter exCh5 exSel.cat1, dfCh2 := exCh5,
        dfCh3 := catFilter exCh5 exSel.cat3,
        dfCh4 := regionFilter exCh5 exSel.region4,
        ch5 := out, dfCh6 := ch6Filter exCh5 0 0,
        dfCh7 := catFilter exCh5 exSel.cat7,
        dfLossRows := dfLoss exCh5, cumLoss := cumsumLossDf exCh5,
        ch10 := ch10LabelsValues exCh5 } := by
    unfold runScript
    rw [hout]
    rfl
  have hmain := filters_leave_base_unchanged exCh5 exSel _ hrun
  exact ⟨_, hrun, hmain.1, hmain.2.1⟩

end MysteryDash
